import Mathlib

/-!
Shallow embedding of the `webtest` export documentation generators
(`src/export/standalone/generate_html.py`, `src/export/obsolete/generate_html_wp.py`,
`src/export/obsolete/generate_hierarchy.py`).

CSV rows are modelled as records whose fields are the columns the scripts read
(`csv.DictReader` yields one dict per row with exactly the header columns, all
strings; the scripts read them with `row["col"]` or `row.get("col", "")`, so a
well-formed input file gives every row every column, possibly empty).

Python dicts that the scripts build by appending (`defaultdict(list)` or the
`if k not in d: d[k] = []` pattern) are modelled as total functions
`String → List _` built by a fold; a key is present in the Python dict exactly
when the modelled list is nonempty, because entries are only ever created by an
append.  Dicts built by overwriting assignment are modelled as
`String → Option _` folds (later assignments win, missing keys are `none`).

The two recursive procedures (`render_node`, `compute_json_path`) can diverge
on cyclic inputs in Python, so they are embedded with an explicit fuel
parameter returning `Option String`; `none` means the fuel ran out.
-/

namespace Webtest

/-- One row of `fields.csv`: columns `object`, `json_name`, `csv_column`,
`type`, `description`. -/
structure FieldRow where
  object : String
  json_name : String
  csv_column : String
  type : String
  description : String
deriving DecidableEq, Repr

/-- One row of `objects.csv`: columns `name`, `description`. -/
structure ObjectRow where
  name : String
  description : String
deriving DecidableEq, Repr

/-- One row of `enum_values.csv`: columns `enum`, `value`, `label`. -/
structure EnumRow where
  enum : String
  value : String
  label : String
deriving DecidableEq, Repr

/-- Python `s.endswith("[]")`, by code points. -/
def strEndsWithArr (s : String) : Bool :=
  match s.data.reverse with
  | ']' :: '[' :: _ => true
  | _ => false

/-- Python `s[:-2]`: drop the final two code points. -/
def strDropArr (s : String) : String :=
  String.mk (s.data.take (s.data.length - 2))

/-- The `base_type` computation every script performs on a field type:
`is_array = ftype.endswith("[]"); base_type = ftype[:-2] if is_array else ftype`. -/
def baseType (s : String) : String :=
  if strEndsWithArr s then strDropArr s else s

/-- Python `name.lower()` restricted to ASCII (object names are ASCII). -/
def asciiLower (s : String) : String :=
  String.mk (s.data.map (fun c =>
    if 'A' ≤ c ∧ c ≤ 'Z' then Char.ofNat (c.toNat + 32) else c))

/-- `html.escape` with its default `quote=True`: escapes the five characters
`&`, `<`, `>`, `"` (to `&quot;`) and the apostrophe (to `&#x27;`). -/
def htmlEscape (s : String) : String :=
  String.mk (s.data.foldr (fun c acc =>
    if c = '&' then "&amp;".data ++ acc
    else if c = '<' then "&lt;".data ++ acc
    else if c = '>' then "&gt;".data ++ acc
    else if c.toNat = 34 then "&quot;".data ++ acc
    else if c.toNat = 39 then "&#x27;".data ++ acc
    else c :: acc) [])

/-- `generate_hierarchy.py` `escape_html`: chained `str.replace` for `&`, `<`,
`>`, `"` only (no apostrophe). -/
def escape_html (s : String) : String :=
  String.mk (s.data.foldr (fun c acc =>
    if c = '&' then "&amp;".data ++ acc
    else if c = '<' then "&lt;".data ++ acc
    else if c = '>' then "&gt;".data ++ acc
    else if c.toNat = 34 then "&quot;".data ++ acc
    else c :: acc) [])

/-- A grouping loop `for r in rows: d[key(r)].append(val(r))` over a
`defaultdict(list)` (or the equivalent `if k not in d` pattern), modelled as a
fold producing a total function. -/
def groupByKey (key : α → String) (val : α → β) (rows : List α) : String → List β :=
  rows.foldl (fun m r => fun x => if x = key r then m x ++ [val r] else m x) (fun _ => [])

theorem groupByKey_aux (key : α → String) (val : α → β) :
    ∀ (rows : List α) (init : String → List β) (k : String),
      rows.foldl (fun m r => fun x => if x = key r then m x ++ [val r] else m x) init k
        = init k ++ (rows.filter (fun r => key r == k)).map val := by
  intro rows
  induction rows with
  | nil => intro init k; simp
  | cons r rows ih =>
    intro init k
    simp only [List.foldl_cons, List.filter_cons]
    by_cases h : key r = k
    · subst h
      rw [ih]
      simp
    · have hb : (key r == k) = false := by simp [h]
      rw [ih]
      simp [hb]
      intro hk
      exact absurd hk.symm h

/-- Characterization of the grouping loops: the list stored under key `k` is
exactly the in-order sublist of rows whose key is `k`, mapped through `val`. -/
theorem groupByKey_apply (key : α → String) (val : α → β) (rows : List α) (k : String) :
    groupByKey key val rows k = (rows.filter (fun r => key r == k)).map val := by
  simpa using groupByKey_aux key val rows (fun _ => []) k

/-- A fuel-indexed all-or-nothing traversal (`Option`-monadic map used to lift
the fuel of recursive renderers over lists of children). -/
def optionTraverse (g : α → Option β) : List α → Option (List β)
  | [] => some []
  | a :: as =>
    match g a, optionTraverse g as with
    | some b, some bs => some (b :: bs)
    | _, _ => none

theorem optionTraverse_isSome (g : α → Option β) (l : List α)
    (h : ∀ a ∈ l, (g a).isSome = true) : (optionTraverse g l).isSome = true := by
  induction l with
  | nil => simp [optionTraverse]
  | cons a as ih =>
    have ha := h a (by simp)
    rcases Option.isSome_iff_exists.mp ha with ⟨b, hb⟩
    have has := ih (fun x hx => h x (by simp [hx]))
    rcases Option.isSome_iff_exists.mp has with ⟨bs, hbs⟩
    simp [optionTraverse, hb, hbs]

/-! ## Shared resolver pieces

The following definitions embed code that appears verbatim (up to the
surrounding function) in both `generate_html.py` and `generate_html_wp.py`;
line references name the standalone script. -/

/-- `object_names = {obj.get("name", "") for obj in objects}` (set used only
for membership). -/
def object_names (objects : List ObjectRow) : List String :=
  objects.map (·.name)

/-- `object_desc = {obj.get("name",""): obj.get("description","") for obj in objects}`:
a dict comprehension, later duplicates overwrite earlier ones. -/
def object_desc (objects : List ObjectRow) : String → Option String :=
  objects.foldl (fun m o => fun k => if k = o.name then some o.description else m k)
    (fun _ => none)

/-- `fields_by_object[field.get("object", "")].append(field)` over all field
rows (`generate_html.py` lines 233–235). -/
def fields_by_object (fields : List FieldRow) : String → List FieldRow :=
  groupByKey (·.object) id fields

/-- `values_by_enum[val.get("enum", "")].append(val)` (`generate_html.py`
lines 238–240): enum name to its rows, in input order. -/
def values_by_enum (enum_values : List EnumRow) : String → List EnumRow :=
  groupByKey (·.enum) id enum_values

/-- `parent_map[base_type] = (parent_obj, fname, is_array)` built from field
rows with a nonempty `json_name` whose base type names a known object
(`generate_html.py` lines 242–255); assignment overwrites, so the last
qualifying row wins. -/
def parent_map (names : List String) (fields : List FieldRow) :
    String → Option (String × String × Bool) :=
  fields.foldl (fun m f =>
    if f.json_name = "" then m
    else if baseType f.type ∈ names then
      fun k => if k = baseType f.type then some (f.object, f.json_name, strEndsWithArr f.type) else m k
    else m) (fun _ => none)

/-- `compute_json_path` (`generate_html.py` lines 257–266, identical in
`generate_html_wp.py` lines 130–138), with explicit fuel: `Site` and
`Location` map to the literal `sites[]`; an object absent from `parent_map`
maps to `""`; otherwise the parent path is extended by `.<field>` with an
array suffix. -/
def compute_json_path (pm : String → Option (String × String × Bool)) :
    Nat → String → Option String
  | 0, _ => none
  | fuel + 1, obj_name =>
    if obj_name = "Site" ∨ obj_name = "Location" then some "sites[]"
    else
      match pm obj_name with
      | none => some ""
      | some (parent_obj, field_name, is_array) =>
        (compute_json_path pm fuel parent_obj).map
          (fun parent_path => parent_path ++ "." ++ field_name ++ (if is_array then "[]" else ""))

/-- The fixed structural merge (`generate_html.py` lines 268–271): when both
`Location` and `Site` have field rows (dict-key presence equals a nonempty
group), the `Site` list is extended with the `Location` list and `Location` is deleted. -/
def merge_location (m : String → List FieldRow) : String → List FieldRow :=
  if m "Location" ≠ [] ∧ m "Site" ≠ [] then
    fun k => if k = "Site" then m "Site" ++ m "Location"
      else if k = "Location" then [] else m k
  else m

/-- `is_json_field`: the field has a nonempty `json_name`. -/
def is_json_field (f : FieldRow) : Bool :=
  f.json_name != ""

/-- `json_objects` (`generate_html.py` lines 277–286): the object rows, in
input order, skipping `Location` and any object with no json-named field in
its merged group. -/
def json_objects (objects : List ObjectRow) (fields : List FieldRow) : List ObjectRow :=
  objects.filter (fun o =>
    o.name != "Location"
      && !((merge_location (fields_by_object fields) o.name).filter is_json_field).isEmpty)

/-- The rows of the JSON section for an object: its merged group filtered to
json-named fields (`generate_html.py` lines 335, 284). -/
def json_section_rows (fields : List FieldRow) (name : String) : List FieldRow :=
  (merge_location (fields_by_object fields) name).filter is_json_field

/-- The navigation list of the JSON page (`generate_html.py` lines 289–292):
an overview anchor followed by one anchor per emitted object section. -/
def json_nav_items (objects : List ObjectRow) (fields : List FieldRow) : List String :=
  "<a href=\"#overview\">Overview</a>"
    :: (json_objects objects fields).map (fun o =>
      "<a href=\"#obj-" ++ asciiLower o.name ++ "\">" ++ o.name ++ "</a>")

/-! ## generate_hierarchy.py -/

/-- `values_by_enum` of `generate_hierarchy.py` (lines 25–30): enum name to
the list of its `value` column entries. -/
def hier_values_by_enum (enum_values : List EnumRow) : String → List String :=
  groupByKey (·.enum) (·.value) enum_values

/-- The display type of a primitive field (`generate_hierarchy.py` lines
55–63): a known enum joins its raw values with `, `; `boolean` and `datetime`
have fixed labels; anything else is shown verbatim. -/
def type_display (vbe : String → List String) (base_type : String) : String :=
  if vbe base_type ≠ [] then String.intercalate ", " (vbe base_type)
  else if base_type = "boolean" then "true, false"
  else if base_type = "datetime" then "ISO 8601 DateTime"
  else base_type

/-- The two maps the `build_tree` loop accumulates. -/
structure TreeMaps where
  children : String → List (String × String × Bool)
  primitives : String → List (String × String × String)

/-- The classification loop of `build_tree` (`generate_hierarchy.py` lines
37–67): rows with an empty `json_name` are skipped; a row whose base type
names a known object is appended to the `children` list of its owner, every
other row to the `primitives` list of its owner with a computed display type. -/
def build_maps (names : List String) (vbe : String → List String)
    (fields : List FieldRow) : TreeMaps :=
  fields.foldl (fun acc field =>
    if field.json_name = "" then acc
    else if baseType field.type ∈ names then
      { acc with children := fun x =>
          if x = field.object then
            acc.children x ++ [(field.json_name, baseType field.type, strEndsWithArr field.type)]
          else acc.children x }
    else
      { acc with primitives := fun x =>
          if x = field.object then
            acc.primitives x ++ [(field.json_name, type_display vbe (baseType field.type), field.description)]
          else acc.primitives x })
    ⟨fun _ => [], fun _ => []⟩

/-- The merge step of `build_tree` (`generate_hierarchy.py` lines 69–72):
when both `Location` and `Site` are keys of `primitives`, the `Site` primitive
list is extended with the `Location` one and `Location` is deleted. -/
def merge_primitives (m : TreeMaps) : TreeMaps :=
  if m.primitives "Location" ≠ [] ∧ m.primitives "Site" ≠ [] then
    { m with primitives := fun k =>
        if k = "Site" then m.primitives "Site" ++ m.primitives "Location"
        else if k = "Location" then [] else m.primitives k }
  else m

/-- `build_tree` (`generate_hierarchy.py` lines 15–74): returns the merged
children/primitives maps and the object description map. -/
def build_tree (objects : List ObjectRow) (fields : List FieldRow)
    (enum_values : List EnumRow) : TreeMaps × (String → Option String) :=
  (merge_primitives (build_maps (object_names objects) (hier_values_by_enum enum_values) fields),
    object_desc objects)

/-- The background color palette of `generate_html` in `generate_hierarchy.py`. -/
def hier_colors : List String :=
  ["#e8f5e9", "#fff3e0", "#e3f2fd", "#fce4ec", "#f3e5f5", "#e0f7fa", "#fff8e1", "#efebe9"]

/-- The border color palette of `generate_html` in `generate_hierarchy.py`. -/
def hier_border_colors : List String :=
  ["#4caf50", "#ff9800", "#2196f3", "#e91e63", "#9c27b0", "#00bcd4", "#ffc107", "#795548"]

/-- `render_node` (`generate_hierarchy.py` lines 106–143) with explicit fuel.
Every dictionary access in the source is guarded (`descriptions.get(...)` with
a default, `if obj_name in primitives`, `if obj_name in children`), so the body
is total; `none` arises only from fuel exhaustion on the recursion into
children.  `field_name or obj_name` is Python truthiness: an absent or empty
field name falls back to the object name. -/
def render_node (children : String → List (String × String × Bool))
    (primitives : String → List (String × String × String))
    (descriptions : String → Option String) :
    Nat → String → Option String → Bool → Nat → Option String
  | 0, _, _, _, _ => none
  | fuel + 1, obj_name, field_name, is_array, depth =>
    let color := hier_colors.getD (depth % hier_colors.length) ""
    let border := hier_border_colors.getD (depth % hier_border_colors.length) ""
    let desc := (descriptions obj_name).getD ""
    let label0 := match field_name with
      | none => obj_name
      | some s => if s = "" then obj_name else s
    let label := if is_array then label0 ++ "[]" else label0
    let fields_html :=
      if primitives obj_name = [] then ""
      else "<table class=\"fields\">"
        ++ String.join ((primitives obj_name).map (fun e =>
            "<tr><td class=\"pfield-name\">" ++ escape_html e.1
              ++ "</td><td class=\"pfield-type\">" ++ escape_html e.2.1
              ++ "</td><td class=\"pfield-desc\">" ++ escape_html e.2.2 ++ "</td></tr>"))
        ++ "</table>"
    match optionTraverse (fun e =>
        render_node children primitives descriptions fuel e.2.1 (some e.1) e.2.2 (depth + 1))
        (children obj_name) with
    | none => none
    | some child_items =>
      let child_html :=
        if children obj_name = [] then ""
        else "<div class=\"children\">" ++ String.join child_items ++ "</div>"
      some ("<div class=\"node\" style=\"background: " ++ color ++ "; border-color: " ++ border
        ++ ";\">\n            <div class=\"header\">\n                <span class=\"field-name\">"
        ++ label ++ "</span>\n                <span class=\"type-name\">" ++ obj_name
        ++ "</span>\n            </div>\n            "
        ++ (if desc = "" then "" else "<div class=\"desc\">" ++ escape_html desc ++ "</div>")
        ++ "\n            " ++ fields_html ++ "\n            " ++ child_html ++ "\n        </div>")

/-! ## Loaders

The filesystem is modelled as a map from filename to the parsed row
list; `none` means the backing file is absent.  The two HTML generators return
the printed warnings alongside the rows; the loader of the hierarchy generator has
no existence check, so an absent file surfaces as the unhandled
`FileNotFoundError` that `open` raises, modelled as `Except.error`. -/

/-- `load_csv` of `generate_html.py` (lines 30–37): if the file does not
exist, print a warning and return the empty list; otherwise return the rows. -/
def load_csv_standalone (fs : String → Option (List α)) (filename : String) :
    List α × List String :=
  match fs filename with
  | none => ([], ["Warning: " ++ filename ++ " not found"])
  | some rows => (rows, [])

/-- `load_csv` of `generate_html_wp.py` (lines 16–23): identical to the
standalone loader. -/
def load_csv_wp (fs : String → Option (List α)) (filename : String) :
    List α × List String :=
  match fs filename with
  | none => ([], ["Warning: " ++ filename ++ " not found"])
  | some rows => (rows, [])

/-- `load_csv` of `generate_hierarchy.py` (lines 10–12): `open` is called
unconditionally, so an absent file raises an unhandled `FileNotFoundError`. -/
def load_csv_hierarchy (fs : String → Option (List α)) (filename : String) :
    Except String (List α) :=
  match fs filename with
  | none => Except.error "FileNotFoundError"
  | some rows => Except.ok rows

/-! ## Type cells -/

/-- The type cell of the standalone JSON renderer (`generate_html.py` lines
364–377): the stripped base type is matched first against the known enums
(joining the escaped `value` column with `, `), then `boolean`, `datetime`,
object references, and finally rendered literally. -/
def json_type_html (vbe : String → List EnumRow) (names : List String)
    (ftype : String) : String :=
  let base_type := baseType ftype
  if vbe base_type ≠ [] then
    String.intercalate ", " ((vbe base_type).map (fun v => htmlEscape v.value))
  else if base_type = "boolean" then "<span class=\"type\">true, false</span>"
  else if base_type = "datetime" then "<span class=\"type\">ISO 8601 DateTime</span>"
  else if base_type ∈ names then
    "<a href=\"#obj-" ++ asciiLower base_type ++ "\">" ++ htmlEscape base_type ++ "</a>"
  else "<span class=\"type\">" ++ htmlEscape base_type ++ "</span>"

/-- The type cell of the WordPress JSON renderer (`generate_html_wp.py` lines
231–242): same branching as the standalone one, without `<span>` wrappers. -/
def wp_json_type_html (vbe : String → List EnumRow) (names : List String)
    (ftype : String) : String :=
  let base_type := baseType ftype
  if vbe base_type ≠ [] then
    String.intercalate ", " ((vbe base_type).map (fun v => htmlEscape v.value))
  else if base_type = "boolean" then "true, false"
  else if base_type = "datetime" then "ISO 8601 DateTime"
  else if base_type ∈ names then
    "<a href=\"#obj-" ++ asciiLower base_type ++ "\">" ++ htmlEscape base_type ++ "</a>"
  else htmlEscape base_type

/-- The type cell of the standalone CSV renderer (`generate_html.py` lines
484–492): the raw `ftype` — not the stripped base type — is matched against
the known enums (joining the escaped `label` column with `, `), then against
the literal `boolean`, and otherwise rendered literally. -/
def csv_type_html (vbe : String → List EnumRow) (ftype : String) : String :=
  if vbe ftype ≠ [] then
    String.intercalate ", " ((vbe ftype).map (fun v => htmlEscape v.label))
  else if ftype = "boolean" then "<span class=\"type\">TRUE, FALSE</span>"
  else "<span class=\"type\">" ++ htmlEscape ftype ++ "</span>"

/-- The type cell of the WordPress CSV renderer (`generate_html_wp.py` lines
323–330): same branching as the standalone CSV one, without `<span>`
wrappers. -/
def wp_csv_type_html (vbe : String → List EnumRow) (ftype : String) : String :=
  if vbe ftype ≠ [] then
    String.intercalate ", " ((vbe ftype).map (fun v => htmlEscape v.label))
  else if ftype = "boolean" then "TRUE, FALSE"
  else htmlEscape ftype

/-! ## CSV sections -/

/-- The fixed, hand-declared CSV section order with display names
(`generate_html.py` lines 439–447, identical in `generate_html_wp.py` lines
281–289). -/
def csv_sections_order : List (String × String) :=
  [("Site", "Site"), ("Project", "Project"), ("Location", "Location"),
   ("SoilMatches", "Soil Matches"), ("EcologicalSite", "Ecological Site"),
   ("SoilData", "Soil Data"), ("DepthInterval", "Depth Intervals")]

/-- `csv_fields = [f for f in fields if f.get("csv_column")]` grouped by
object (`generate_html.py` lines 432–436, identical in `generate_html_wp.py`
lines 276–279). -/
def csv_fields_by_object (fields : List FieldRow) : String → List FieldRow :=
  groupByKey (·.object) id (fields.filter (fun f => f.csv_column != ""))

/-- The emitted CSV sections (`generate_html.py` lines 462–466 /
`generate_html_wp.py` lines 303–305): walk the fixed order, skip objects
whose group is empty, emit `(object name, display name, its csv rows)`. -/
def csv_sections (fields : List FieldRow) : List (String × String × List FieldRow) :=
  csv_sections_order.filterMap (fun sd =>
    let obj_fields := csv_fields_by_object fields sd.1
    if obj_fields = [] then none else some (sd.1, sd.2, obj_fields))

/-- The footer fragment of the standalone pages (`generate_html.py` lines
408–411 and 524–527): it interpolates `datetime.now().strftime(...)`, modelled
as the ambient environment string `now`. -/
def standalone_footer (now : String) : String :=
  "<footer>\n            Generated on " ++ now
    ++ " ·\n            <a href=\"https://github.com/techmatters/terraso-backend\">terraso-backend</a>\n        </footer>"

/-! ## WordPress fragment generators (`generate_html_wp.py`)

These are embedded down to the exact output string.  The ambient environment
the standalone scripts read (the clock, via `datetime.now()`) is threaded as
an explicit `env : String` parameter into every top-level generator so that
environment dependence is visible in the types; `generate_html_wp.py` never
imports `datetime` and reads nothing from the environment, so its two
generators ignore the parameter. -/

/-- `SCOPED_STYLES` (`generate_html_wp.py` lines 36–97), verbatim; literal
braces are written with their escapes. -/
def wp_scoped_styles : String :=
"
<style>
/* Scoped styles for export docs - minimal overrides */
#export-docs .nav-links \x7b
    margin-bottom: 1.5em;
    padding: 1em;
    background: #f5f5f5;
    border-radius: 4px;
\x7d
#export-docs .nav-links a \x7b
    display: inline-block;
    margin: 0.25em 0.5em 0.25em 0;
    padding: 0.25em 0.75em;
    background: #e0e0e0;
    border-radius: 3px;
    text-decoration: none;
\x7d
#export-docs .nav-links a:hover \x7b
    background: #4a7c4e;
    color: white;
\x7d
#export-docs table \x7b
    width: 100%;
    border-collapse: collapse;
    margin: 1em 0;
\x7d
#export-docs th,
#export-docs td \x7b
    padding: 0.5em 0.75em;
    text-align: left;
    border-bottom: 1px solid #ddd;
    vertical-align: top;
\x7d
#export-docs th \x7b
    background: #f9f9f9;
    font-weight: 600;
\x7d
#export-docs code \x7b
    background: #f5f5f5;
    padding: 0.1em 0.4em;
    border-radius: 3px;
    font-size: 0.9em;
\x7d
#export-docs pre \x7b
    background: #f5f5f5;
    padding: 1em;
    border-radius: 4px;
    overflow-x: auto;
\x7d
#export-docs .section \x7b
    margin-bottom: 2em;
\x7d
#export-docs .muted \x7b
    color: #666;
\x7d
#export-docs .json-path \x7b
    color: #666;
    font-size: 0.9em;
    margin-bottom: 1em;
\x7d
</style>
"

/-- The `link` helper of the structure overview (`generate_html_wp.py` lines
166–168). -/
def wp_link (name obj : String) (is_array : Bool) : String :=
  "<a href=\"#obj-" ++ asciiLower obj ++ "\">" ++ name
    ++ (if is_array then "[]" else "") ++ "</a>"

/-- The hand-written structure overview (`generate_html_wp.py` lines
170–188), a fixed tree of links independent of the resolved maps. -/
def wp_structure_html : String :=
  wp_link "sites" "Site" true
    ++ "\n  " ++ wp_link "project" "Project" false
    ++ "\n    " ++ wp_link "soilSettings" "SoilSettings" false
    ++ "\n      " ++ wp_link "depthIntervals" "ProjectDepthInterval" true
    ++ "\n  " ++ wp_link "soilData" "SoilData" false
    ++ "\n    " ++ wp_link "_depthIntervals" "DepthInterval" true
    ++ "\n  " ++ wp_link "notes" "Note" true
    ++ "\n    " ++ wp_link "author" "Author" false
    ++ "\n  " ++ wp_link "soil_id" "SoilMatches" false
    ++ "\n    " ++ wp_link "matches" "SoilMatch" true
    ++ "\n      " ++ wp_link "combinedMatch" "MatchScore" false
    ++ "\n      " ++ wp_link "dataMatch" "MatchScore" false
    ++ "\n      " ++ wp_link "locationMatch" "MatchScore" false
    ++ "\n      " ++ wp_link "soilInfo" "SoilInfo" false
    ++ "\n        " ++ wp_link "soilSeries" "SoilSeries" false
    ++ "\n        " ++ wp_link "ecologicalSite" "EcologicalSite" false
    ++ "\n        " ++ wp_link "landCapabilityClass" "LandCapabilityClass" false
    ++ "\n        " ++ wp_link "soilData" "MatchSoilData" false
    ++ "\n          " ++ wp_link "depthDependentData" "MatchDepthData" true

/-- One field row of a WordPress JSON section table (`generate_html_wp.py`
lines 218–244). -/
def wp_field_row_html (vbe : String → List EnumRow) (names : List String)
    (f : FieldRow) : String :=
  let fname_html :=
    if strEndsWithArr f.type then "<code>" ++ htmlEscape f.json_name ++ "[]</code>"
    else "<code>" ++ htmlEscape f.json_name ++ "</code>"
  "<tr><td>" ++ fname_html ++ "</td><td>" ++ wp_json_type_html vbe names f.type
    ++ "</td><td>" ++ htmlEscape f.description ++ "</td></tr>"

/-- One object section of the WordPress JSON fragment (`generate_html_wp.py`
lines 198–247); `none` only when the path computation runs out of fuel. -/
def wp_json_section_html (vbe : String → List EnumRow) (names : List String)
    (fields : List FieldRow) (fuel : Nat) (o : ObjectRow) : Option String :=
  (compute_json_path (parent_map names fields) fuel o.name).map (fun path =>
    let obj_fields := json_section_rows fields o.name
    if obj_fields = [] then ""
    else
      "<div class=\"section\" id=\"obj-" ++ asciiLower o.name ++ "\">"
        ++ "<h2>" ++ htmlEscape o.name ++ "</h2>"
        ++ (if o.description = "" then "" else "<p>" ++ htmlEscape o.description ++ "</p>")
        ++ (if path = "" then ""
            else "<p class=\"json-path\">JSON path: <code>" ++ htmlEscape path ++ "</code></p>")
        ++ "<table>"
        ++ "<thead><tr><th>Field</th><th>Type</th><th>Description</th></tr></thead>"
        ++ "<tbody>"
        ++ String.join (obj_fields.map (wp_field_row_html vbe names))
        ++ "</tbody></table>"
        ++ "</div>")

/-- `generate_json_html` of `generate_html_wp.py` (lines 100–264), down to the
exact fragment string.  `env` is the ambient clock reading, never consulted;
`fuel` bounds the `compute_json_path` recursion. -/
def wp_generate_json_html (env : String) (fuel : Nat) (objects : List ObjectRow)
    (fields : List FieldRow) (enum_values : List EnumRow) : Option String :=
  let names := object_names objects
  let vbe := values_by_enum enum_values
  let jobjs := json_objects objects fields
  (optionTraverse (wp_json_section_html vbe names fields fuel) jobjs).map (fun secs =>
    let overview :=
      "<div class=\"section\" id=\"overview\">"
        ++ "<h2>Overview</h2>"
        ++ "<p>The export API returns site data in JSON format with the following structure:</p>"
        ++ "<pre><code>" ++ wp_structure_html ++ "</code></pre>"
        ++ "<p>Fields starting with <code>_</code> are derived fields expanded by the export.</p>"
        ++ "</div>"
    "<!-- WordPress Export Docs - JSON Format -->\n"
      ++ wp_scoped_styles
      ++ "\n<div id=\"export-docs\">\n    <h1>LandPKS JSON Export Format</h1>\n    <p>Documentation for the JSON format returned by the export API</p>\n\n    <div class=\"nav-links\">\n        "
      ++ String.intercalate " " (json_nav_items objects fields)
      ++ "\n        <span class=\"muted\" style=\"margin-left: 1em;\">See also: <a href=\"csv_format_wp.html\">CSV Format</a></span>\n    </div>\n\n    "
      ++ (overview ++ String.join secs)
      ++ "\n</div>\n")

/-- One section of the WordPress CSV fragment (`generate_html_wp.py` lines
303–335). -/
def wp_csv_section_html (vbe : String → List EnumRow)
    (s : String × String × List FieldRow) : String :=
  "<div class=\"section\" id=\"csv-" ++ asciiLower s.1 ++ "\">"
    ++ "<h2>" ++ s.2.1 ++ "</h2>"
    ++ (if s.1 = "DepthInterval"
        then "<p>One row per depth interval. Intervals are determined by the site\x27s depth interval preset.</p>"
        else "")
    ++ "<table>"
    ++ "<thead><tr><th>CSV Column</th><th>Type</th><th>Description</th></tr></thead>"
    ++ "<tbody>"
    ++ String.join (s.2.2.map (fun f =>
        "<tr><td>" ++ htmlEscape f.csv_column ++ "</td><td>" ++ wp_csv_type_html vbe f.type
          ++ "</td><td>" ++ htmlEscape f.description ++ "</td></tr>"))
    ++ "</tbody></table>"
    ++ "</div>"

/-- `generate_csv_html` of `generate_html_wp.py` (lines 267–351), down to the
exact fragment string.  `env` is the ambient clock reading, never consulted. -/
def wp_generate_csv_html (env : String) (fields : List FieldRow)
    (enum_values : List EnumRow) : String :=
  let vbe := values_by_enum enum_values
  let nav_items := csv_sections_order.filterMap (fun sd =>
    if csv_fields_by_object fields sd.1 = [] then none
    else some ("<a href=\"#csv-" ++ asciiLower sd.1 ++ "\">" ++ sd.2 ++ "</a>"))
  let overview :=
    "<div class=\"section\" id=\"overview\">"
      ++ "<h2>Overview</h2>"
      ++ "<p>The CSV export produces <strong>one row per depth interval per site</strong>. Site-level fields repeat on each row.</p>"
      ++ "</div>"
  "<!-- WordPress Export Docs - CSV Format -->\n"
    ++ wp_scoped_styles
    ++ "\n<div id=\"export-docs\">\n    <h1>LandPKS CSV Export Format</h1>\n    <p>Documentation for the CSV format returned by the export API</p>\n\n    <div class=\"nav-links\">\n        "
    ++ String.intercalate " " nav_items
    ++ "\n        <span class=\"muted\" style=\"margin-left: 1em;\">See also: <a href=\"json_format_wp.html\">JSON Format</a></span>\n    </div>\n\n    "
    ++ (overview ++ String.join ((csv_sections fields).map (wp_csv_section_html vbe)))
    ++ "\n</div>\n"

/-! ## Characterizations of the derived maps -/

theorem fields_by_object_eq (fields : List FieldRow) (o : String) :
    fields_by_object fields o = fields.filter (fun f => f.object == o) := by
  rw [fields_by_object, groupByKey_apply, List.map_id]

theorem values_by_enum_eq (enum_values : List EnumRow) (e : String) :
    values_by_enum enum_values e = enum_values.filter (fun v => v.enum == e) := by
  rw [values_by_enum, groupByKey_apply, List.map_id]

theorem hier_values_by_enum_eq (enum_values : List EnumRow) (e : String) :
    hier_values_by_enum enum_values e
      = (enum_values.filter (fun v => v.enum == e)).map (·.value) := by
  rw [hier_values_by_enum, groupByKey_apply]

theorem csv_fields_by_object_eq (fields : List FieldRow) (o : String) :
    csv_fields_by_object fields o
      = fields.filter (fun f => f.csv_column != "" && f.object == o) := by
  rw [csv_fields_by_object, groupByKey_apply, List.map_id, List.filter_filter]
  have hp : (fun a : FieldRow => a.object == o && a.csv_column != "")
      = (fun f : FieldRow => f.csv_column != "" && f.object == o) :=
    funext fun a => Bool.and_comm _ _
  rw [hp]

theorem build_maps_children_aux (names : List String) (vbe : String → List String) :
    ∀ (fields : List FieldRow) (acc : TreeMaps) (o : String),
      ((fields.foldl (fun acc field =>
        if field.json_name = "" then acc
        else if baseType field.type ∈ names then
          { acc with children := fun x =>
              if x = field.object then
                acc.children x ++ [(field.json_name, baseType field.type, strEndsWithArr field.type)]
              else acc.children x }
        else
          { acc with primitives := fun x =>
              if x = field.object then
                acc.primitives x ++ [(field.json_name, type_display vbe (baseType field.type), field.description)]
              else acc.primitives x }) acc).children) o
      = acc.children o
        ++ (fields.filter (fun f =>
              f.object == o && f.json_name != "" && decide (baseType f.type ∈ names))).map
            (fun f => (f.json_name, baseType f.type, strEndsWithArr f.type)) := by
  intro fields
  induction fields with
  | nil => intro acc o; simp
  | cons f fields ih =>
    intro acc o
    simp only [List.foldl_cons, List.filter_cons]
    by_cases hj : f.json_name = ""
    · simp [hj, ih]
    · by_cases hn : baseType f.type ∈ names
      · by_cases ho : f.object = o
        · subst ho
          rw [if_neg hj, if_pos hn, ih]
          simp [hj, hn]
        · rw [if_neg hj, if_pos hn, ih]
          have hb : (f.object == o) = false := by simp [ho]
          have ho2 : ¬ o = f.object := fun h => ho h.symm
          simp [hb, ho2]
      · rw [if_neg hj, if_neg hn, ih]
        simp [hn]

theorem build_maps_primitives_aux (names : List String) (vbe : String → List String) :
    ∀ (fields : List FieldRow) (acc : TreeMaps) (o : String),
      ((fields.foldl (fun acc field =>
        if field.json_name = "" then acc
        else if baseType field.type ∈ names then
          { acc with children := fun x =>
              if x = field.object then
                acc.children x ++ [(field.json_name, baseType field.type, strEndsWithArr field.type)]
              else acc.children x }
        else
          { acc with primitives := fun x =>
              if x = field.object then
                acc.primitives x ++ [(field.json_name, type_display vbe (baseType field.type), field.description)]
              else acc.primitives x }) acc).primitives) o
      = acc.primitives o
        ++ (fields.filter (fun f =>
              f.object == o && f.json_name != "" && !decide (baseType f.type ∈ names))).map
            (fun f => (f.json_name, type_display vbe (baseType f.type), f.description)) := by
  intro fields
  induction fields with
  | nil => intro acc o; simp
  | cons f fields ih =>
    intro acc o
    simp only [List.foldl_cons, List.filter_cons]
    by_cases hj : f.json_name = ""
    · simp [hj, ih]
    · by_cases hn : baseType f.type ∈ names
      · rw [if_neg hj, if_pos hn, ih]
        simp [hn]
      · by_cases ho : f.object = o
        · subst ho
          rw [if_neg hj, if_neg hn, ih]
          simp [hj, hn]
        · rw [if_neg hj, if_neg hn, ih]
          have hb : (f.object == o) = false := by simp [ho]
          have ho2 : ¬ o = f.object := fun h => ho h.symm
          simp [hb, ho2]

/-- The `children` map built by the `build_tree` loop holds, under each owner,
exactly the in-order json-named rows whose base type names a known object. -/
theorem build_maps_children (names : List String) (vbe : String → List String)
    (fields : List FieldRow) (o : String) :
    (build_maps names vbe fields).children o
      = (fields.filter (fun f =>
            f.object == o && f.json_name != "" && decide (baseType f.type ∈ names))).map
          (fun f => (f.json_name, baseType f.type, strEndsWithArr f.type)) := by
  simpa using build_maps_children_aux names vbe fields ⟨fun _ => [], fun _ => []⟩ o

/-- The `primitives` map built by the `build_tree` loop holds, under each
owner, exactly the in-order json-named rows whose base type does not name a
known object, with their computed display types. -/
theorem build_maps_primitives (names : List String) (vbe : String → List String)
    (fields : List FieldRow) (o : String) :
    (build_maps names vbe fields).primitives o
      = (fields.filter (fun f =>
            f.object == o && f.json_name != "" && !decide (baseType f.type ∈ names))).map
          (fun f => (f.json_name, type_display vbe (baseType f.type), f.description)) := by
  simpa using build_maps_primitives_aux names vbe fields ⟨fun _ => [], fun _ => []⟩ o

/-! ## The object-reference relation and termination -/

/-- The object-reference relation derived from the fields table: `edgeRel ns
fields p c` holds when some json-named field row owned by `p` has base type
`c` naming a known object.  Every entry of the hierarchy `children` map and
every entry of `parent_map` is such an edge. -/
def edgeRel (names : List String) (fields : List FieldRow) (p c : String) : Prop :=
  ∃ f, f ∈ fields ∧ f.object = p ∧ f.json_name ≠ "" ∧ baseType f.type = c ∧ c ∈ names

theorem edgeRel_source_mem {names : List String} {fields : List FieldRow} {p c : String}
    (h : edgeRel names fields p c) : p ∈ fields.map (·.object) := by
  rcases h with ⟨f, hf, hobj, -, -, -⟩
  exact List.mem_map.mpr ⟨f, hf, hobj⟩

theorem children_entry_edge {names : List String} {vbe : String → List String}
    {fields : List FieldRow} {o : String} {e : String × String × Bool}
    (h : e ∈ (build_maps names vbe fields).children o) : edgeRel names fields o e.2.1 := by
  rw [build_maps_children] at h
  rcases List.mem_map.mp h with ⟨f, hf, hval⟩
  rcases List.mem_filter.mp hf with ⟨hmem, hpred⟩
  simp only [Bool.and_eq_true, beq_iff_eq, bne_iff_ne, ne_eq, decide_eq_true_eq] at hpred
  refine ⟨f, hmem, hpred.1.1, hpred.1.2, ?_, ?_⟩
  · rw [← hval]
  · rw [← hval]; exact hpred.2

theorem parent_map_entry_edge {names : List String} {fields : List FieldRow}
    {c p fn : String} {ar : Bool} (h : parent_map names fields c = some (p, fn, ar)) :
    edgeRel names fields p c := by
  rw [parent_map] at h
  suffices hgen : ∀ (l : List FieldRow) (init : String → Option (String × String × Bool)),
      (∀ k v1 v2 v3, init k = some (v1, v2, v3) → edgeRel names fields v1 k) →
      (∀ f ∈ l, f ∈ fields) →
      (l.foldl (fun m f =>
        if f.json_name = "" then m
        else if baseType f.type ∈ names then
          fun k => if k = baseType f.type then some (f.object, f.json_name, strEndsWithArr f.type) else m k
        else m) init) c = some (p, fn, ar) → edgeRel names fields p c by
    exact hgen fields (fun _ => none) (by intro k v1 v2 v3 hk; cases hk) (fun f hf => hf) h
  intro l
  induction l with
  | nil => intro init hinit _ hc; exact hinit c p fn ar hc
  | cons f l ih =>
    intro init hinit hsub hc
    refine ih _ ?_ (fun g hg => hsub g (by simp [hg])) hc
    intro k v1 v2 v3 hk
    dsimp only at hk
    by_cases hj : f.json_name = ""
    · rw [if_pos hj] at hk; exact hinit k v1 v2 v3 hk
    · rw [if_neg hj] at hk
      by_cases hn : baseType f.type ∈ names
      · rw [if_pos hn] at hk
        by_cases hkb : k = baseType f.type
        · rw [if_pos hkb] at hk
          injection hk with hk1
          injection hk1 with h1 h23
          exact h1 ▸ ⟨f, hsub f (by simp), rfl, hj, hkb.symm, hkb ▸ hn⟩
        · rw [if_neg hkb] at hk; exact hinit k v1 v2 v3 hk
      · rw [if_neg hn] at hk; exact hinit k v1 v2 v3 hk

/-- On a relation whose edges start inside a fixed finite list, acyclicity
(no element reaches itself through the transitive closure) yields a ranking
that strictly decreases along every edge — the finite-DAG topological
measure. -/
theorem exists_rank_of_acyclic (R : String → String → Prop) (L : List String)
    (hdom : ∀ p c, R p c → p ∈ L)
    (hacyc : ∀ x, ¬ Relation.TransGen R x x) :
    ∃ rank : String → Nat,
      (∀ p c, R p c → rank c < rank p) ∧ (∀ x, rank x ≤ L.length) := by
  classical
  refine ⟨fun x => (L.toFinset.filter (fun k => x = k ∨ Relation.TransGen R x k)).card, ?_, ?_⟩
  · intro p c hpc
    apply Finset.card_lt_card
    rw [Finset.ssubset_iff_of_subset]
    · refine ⟨p, ?_, ?_⟩
      · exact Finset.mem_filter.mpr ⟨List.mem_toFinset.mpr (hdom p c hpc), Or.inl rfl⟩
      · intro hmem
        rcases (Finset.mem_filter.mp hmem).2 with hcp | hcp
        · exact hacyc p (Relation.TransGen.single (hcp ▸ hpc))
        · exact hacyc p ((Relation.TransGen.single hpc).trans hcp)
    · intro k hk
      rcases Finset.mem_filter.mp hk with ⟨hkL, hck⟩
      refine Finset.mem_filter.mpr ⟨hkL, Or.inr ?_⟩
      rcases hck with hck | hck
      · exact hck ▸ Relation.TransGen.single hpc
      · exact (Relation.TransGen.single hpc).trans hck
  · intro x
    calc (L.toFinset.filter (fun k => x = k ∨ Relation.TransGen R x k)).card
        ≤ L.toFinset.card := Finset.card_filter_le _ _
      _ ≤ L.length := List.toFinset_card_le L

/-- Fuel sufficiency for `render_node`: when a rank strictly decreases into
every child entry, rank-many units of fuel suffice. -/
theorem render_node_isSome_of_rank
    (children : String → List (String × String × Bool))
    (primitives : String → List (String × String × String))
    (descriptions : String → Option String) (rank : String → Nat)
    (hedge : ∀ o e, e ∈ children o → rank e.2.1 < rank o) :
    ∀ (fuel : Nat) (o : String), rank o < fuel →
      ∀ (fn : Option String) (ia : Bool) (d : Nat),
        (render_node children primitives descriptions fuel o fn ia d).isSome = true := by
  intro fuel
  induction fuel with
  | zero => intro o h; exact absurd h (Nat.not_lt_zero _)
  | succ f ih =>
    intro o h fn ia d
    have hm : (optionTraverse (fun e =>
        render_node children primitives descriptions f e.2.1 (some e.1) e.2.2 (d + 1))
        (children o)).isSome = true := by
      apply optionTraverse_isSome
      intro e he
      exact ih e.2.1 (lt_of_lt_of_le (hedge o e he) (Nat.lt_succ_iff.mp h)) _ _ _
    rcases Option.isSome_iff_exists.mp hm with ⟨parts, hp⟩
    simp only [render_node, hp]
    simp

/-- Fuel sufficiency for `compute_json_path`: the upward walk strictly
increases a rank bounded by `n`, so `n + 1` units of fuel always suffice. -/
theorem compute_json_path_isSome_of_rank
    (pm : String → Option (String × String × Bool)) (rank : String → Nat) (n : Nat)
    (hpm : ∀ c p fn ar, pm c = some (p, fn, ar) → rank c < rank p)
    (hbound : ∀ x, rank x ≤ n) :
    ∀ (fuel : Nat) (o : String), n < fuel + rank o →
      (compute_json_path pm fuel o).isSome = true := by
  intro fuel
  induction fuel with
  | zero =>
    intro o h
    exact absurd (hbound o) (by simpa using h)
  | succ f ih =>
    intro o h
    by_cases hroot : o = "Site" ∨ o = "Location"
    · simp [compute_json_path, hroot]
    · rcases hp : pm o with _ | ⟨p, fn, ar⟩
      · simp [compute_json_path, hroot, hp]
      · have hlt : rank o < rank p := hpm o p fn ar hp
        have hrec := ih p (by omega)
        rcases Option.isSome_iff_exists.mp hrec with ⟨pp, hpp⟩
        simp [compute_json_path, hroot, hp, hpp]

/-! ## Claims -/

/-- C3: for every object name, the resolved lists — the `children` and
`primitives` maps of the `build_tree` loop and the `fields_by_object` groups —
hold exactly the corresponding input rows in input order: each list equals the
in-order filtered sublist of the fields table (mapped through the per-row
value), so insertion order is preserved and nothing is re-sorted. -/
theorem c3_order_preserved (names : List String) (vbe : String → List String)
    (fields : List FieldRow) (o : String) :
    (build_maps names vbe fields).children o
      = (fields.filter (fun f =>
            f.object == o && f.json_name != "" && decide (baseType f.type ∈ names))).map
          (fun f => (f.json_name, baseType f.type, strEndsWithArr f.type))
    ∧ (build_maps names vbe fields).primitives o
      = (fields.filter (fun f =>
            f.object == o && f.json_name != "" && !decide (baseType f.type ∈ names))).map
          (fun f => (f.json_name, type_display vbe (baseType f.type), f.description))
    ∧ fields_by_object fields o = fields.filter (fun f => f.object == o) :=
  ⟨build_maps_children names vbe fields o, build_maps_primitives names vbe fields o,
    fields_by_object_eq fields o⟩

/-- C8: the flat CSV-table renderer (shared by `generate_html.py` and
`generate_html_wp.py`) emits one section per object of the fixed, hand-declared
order — Site, Project, Location, SoilMatches, EcologicalSite, SoilData,
DepthInterval — whose section lists exactly the rows of that object carrying a
non-empty `csv_column`, in input order; an object with no such rows yields no
section. -/
theorem c8_csv_sections_exact (fields : List FieldRow) :
    csv_sections fields
      = csv_sections_order.filterMap (fun sd =>
          if fields.filter (fun f => f.csv_column != "" && f.object == sd.1) = [] then none
          else some (sd.1, sd.2, fields.filter (fun f => f.csv_column != "" && f.object == sd.1))) := by
  rw [csv_sections]
  have hfun : (fun sd : String × String =>
        let obj_fields := csv_fields_by_object fields sd.1
        if obj_fields = [] then none else some (sd.1, sd.2, obj_fields))
      = (fun sd : String × String =>
          if fields.filter (fun f => f.csv_column != "" && f.object == sd.1) = [] then none
          else some (sd.1, sd.2, fields.filter (fun f => f.csv_column != "" && f.object == sd.1))) := by
    funext sd
    rw [csv_fields_by_object_eq]
  rw [hfun]

/-- C1 is corrected.  Counterexample: the field row
`{object: Site, json_name: "", type: Project}` has stripped type `Project`,
the name of a known Object, yet the resolver appends it to neither the
`children` nor the `primitives` list of `Site` — rows with an empty
`json_name` are skipped entirely, so the dichotomy of the claim fails for them. -/
theorem c1_counterexample :
    (build_maps ["Site", "Project"] (hier_values_by_enum [])
        [⟨"Site", "", "", "Project", ""⟩]).children "Site" = []
    ∧ (build_maps ["Site", "Project"] (hier_values_by_enum [])
        [⟨"Site", "", "", "Project", ""⟩]).primitives "Site" = [] := by
  constructor <;> rfl

/-- C1 (amended): for every field row with a NON-EMPTY `json_name`: if its
stripped type names a known Object it is appended to the children list of its
owner
list as (field name, base type, is-array flag), and the primitives map never
holds object-typed rows (it is exactly the non-object json-named rows with
computed display labels); every other such row is appended to the primitives
list of its owner with its computed display label.  Rows with an empty
`json_name` are skipped. -/
theorem c1_amended_classification (names : List String) (vbe : String → List String)
    (fields : List FieldRow) (f : FieldRow) (hf : f ∈ fields) (hjson : f.json_name ≠ "") :
    (baseType f.type ∈ names →
      (f.json_name, baseType f.type, strEndsWithArr f.type)
        ∈ (build_maps names vbe fields).children f.object)
    ∧ (baseType f.type ∉ names →
      (f.json_name, type_display vbe (baseType f.type), f.description)
        ∈ (build_maps names vbe fields).primitives f.object)
    ∧ (∀ o : String, (build_maps names vbe fields).primitives o
        = (fields.filter (fun g =>
              g.object == o && g.json_name != "" && !decide (baseType g.type ∈ names))).map
            (fun g => (g.json_name, type_display vbe (baseType g.type), g.description))) := by
  refine ⟨?_, ?_, fun o => build_maps_primitives names vbe fields o⟩
  · intro hn
    rw [build_maps_children]
    exact List.mem_map.mpr ⟨f, List.mem_filter.mpr ⟨hf, by simp [hjson, hn]⟩, rfl⟩
  · intro hn
    rw [build_maps_primitives]
    exact List.mem_map.mpr ⟨f, List.mem_filter.mpr ⟨hf, by simp [hjson, hn]⟩, rfl⟩

/-- Witness for C1 (amended): the row `{object: Site, json_name: project,
type: Project[]}` with known Object `Project` lands in `children "Site"` as
`("project", "Project", true)`. -/
theorem c1_witness :
    ((⟨"Site", "project", "", "Project[]", ""⟩ : FieldRow)
        ∈ [(⟨"Site", "project", "", "Project[]", ""⟩ : FieldRow)]
      ∧ (⟨"Site", "project", "", "Project[]", ""⟩ : FieldRow).json_name ≠ "")
    ∧ (baseType "Project[]" ∈ ["Project"] →
        ("project", baseType "Project[]", strEndsWithArr "Project[]")
          ∈ (build_maps ["Project"] (hier_values_by_enum [])
              [⟨"Site", "project", "", "Project[]", ""⟩]).children "Site") :=
  ⟨⟨by decide, by decide⟩,
    (c1_amended_classification ["Project"] (hier_values_by_enum [])
      [⟨"Site", "project", "", "Project[]", ""⟩]
      ⟨"Site", "project", "", "Project[]", ""⟩ (by decide) (by decide)).1⟩

/-- C6 is corrected.  Counterexample: with `fields.csv` absent, the loader of
`generate_hierarchy.py` does not return an empty sequence with a warning — it
propagates the unhandled `FileNotFoundError` that the unguarded `open`
raises, so the claimed contract fails for that generator. -/
theorem c6_counterexample :
    load_csv_hierarchy (fun _ => (none : Option (List FieldRow))) "fields.csv"
        = Except.error "FileNotFoundError"
    ∧ load_csv_hierarchy (fun _ => (none : Option (List FieldRow))) "fields.csv"
        ≠ Except.ok [] := by
  constructor
  · rfl
  · intro h
    cases h

/-- C6 (amended): the loaders of `generate_html.py` and `generate_html_wp.py`
return the rows of the table in order, and on an absent backing file emit a warning
and return the empty sequence, continuing non-fatally; the loader of
`generate_hierarchy.py` likewise returns the rows of a present file but fails
with an unhandled `FileNotFoundError` when the file is absent. -/
theorem c6_amended_loader_contract {α : Type} (fs : String → Option (List α))
    (filename : String) :
    (∀ rows, fs filename = some rows →
        load_csv_standalone fs filename = (rows, [])
        ∧ load_csv_wp fs filename = (rows, [])
        ∧ load_csv_hierarchy fs filename = Except.ok rows)
    ∧ (fs filename = none →
        load_csv_standalone fs filename = ([], ["Warning: " ++ filename ++ " not found"])
        ∧ load_csv_wp fs filename = ([], ["Warning: " ++ filename ++ " not found"])
        ∧ load_csv_hierarchy fs filename = Except.error "FileNotFoundError") := by
  constructor
  · intro rows h
    refine ⟨?_, ?_, ?_⟩ <;> simp [load_csv_standalone, load_csv_wp, load_csv_hierarchy, h]
  · intro h
    refine ⟨?_, ?_, ?_⟩ <;> simp [load_csv_standalone, load_csv_wp, load_csv_hierarchy, h]

/-- Witness for C6 (amended): on a filesystem holding one `objects.csv` row,
all three loaders return that row list. -/
theorem c6_witness :
    ((fun n => if n = "objects.csv" then some [(⟨"Site", "A site"⟩ : ObjectRow)] else none)
        "objects.csv" = some [(⟨"Site", "A site"⟩ : ObjectRow)])
    ∧ (load_csv_standalone
          (fun n => if n = "objects.csv" then some [(⟨"Site", "A site"⟩ : ObjectRow)] else none)
          "objects.csv" = ([⟨"Site", "A site"⟩], [])
        ∧ load_csv_wp
          (fun n => if n = "objects.csv" then some [(⟨"Site", "A site"⟩ : ObjectRow)] else none)
          "objects.csv" = ([⟨"Site", "A site"⟩], [])
        ∧ load_csv_hierarchy
          (fun n => if n = "objects.csv" then some [(⟨"Site", "A site"⟩ : ObjectRow)] else none)
          "objects.csv" = Except.ok [⟨"Site", "A site"⟩]) :=
  ⟨rfl,
    (c6_amended_loader_contract
      (fun n => if n = "objects.csv" then some [(⟨"Site", "A site"⟩ : ObjectRow)] else none)
      "objects.csv").1 [⟨"Site", "A site"⟩] rfl⟩

/-- C10: the WordPress-fragment generators are deterministic — with the
ambient environment (the clock reading that the standalone variants
interpolate into their footers) threaded explicitly, `generate_json_html` and
`generate_csv_html` of `generate_html_wp.py` produce identical output for
identical row collections under any two environments: they never consult the
environment. -/
theorem c10_wp_determinism (env1 env2 : String) (fuel : Nat)
    (objects : List ObjectRow) (fields : List FieldRow) (enum_values : List EnumRow) :
    wp_generate_json_html env1 fuel objects fields enum_values
      = wp_generate_json_html env2 fuel objects fields enum_values
    ∧ wp_generate_csv_html env1 fields enum_values
      = wp_generate_csv_html env2 fields enum_values :=
  ⟨rfl, rfl⟩

/-- The standalone footers, by contrast, do interpolate the environment. -/
theorem standalone_footer_env_dependent :
    standalone_footer "2024-01-01 00:00" ≠ standalone_footer "2024-01-02 00:00" := by
  decide

/-- C4 is corrected.  Counterexample: with enum `Status` having rows
`(A, Active)`, `(I, Inactive)`, a field of type `Status[]` gets the joined raw
values `A, I` from the JSON type cell (which strips the array marker before
the enum lookup) but NOT the joined labels from the CSV type cell — the CSV
renderers match the raw, unstripped type string against the enums, so
`Status[]` is rendered literally there. -/
theorem c4_counterexample :
    json_type_html
        (values_by_enum [⟨"Status", "A", "Active"⟩, ⟨"Status", "I", "Inactive"⟩])
        ["Site"] "Status[]" = "A, I"
    ∧ csv_type_html
        (values_by_enum [⟨"Status", "A", "Active"⟩, ⟨"Status", "I", "Inactive"⟩])
        "Status[]" = "<span class=\"type\">Status[]</span>"
    ∧ csv_type_html
        (values_by_enum [⟨"Status", "A", "Active"⟩, ⟨"Status", "I", "Inactive"⟩])
        "Status[]" ≠ "Active, Inactive" := by
  refine ⟨by decide, by decide, by decide⟩

/-- C4 (amended): enum resolution is format-sensitive over the identical
underlying rows, but the two formats match different strings: when the
STRIPPED base type names a known enum, the JSON type cells (standalone and
WordPress) show the escaped `value` column of that enum joined with `, ` in row
order; when the RAW, unstripped type names a known enum, the CSV type cells
show the escaped `label` column joined with `, ` in row order.  The CSV
renderers never strip an array marker, so an array-marked enum type is
rendered literally there. -/
theorem c4_amended_enum_cells (enum_values : List EnumRow) (names : List String)
    (ftype : String) :
    (values_by_enum enum_values (baseType ftype) ≠ [] →
      json_type_html (values_by_enum enum_values) names ftype
          = String.intercalate ", "
              ((enum_values.filter (fun v => v.enum == baseType ftype)).map
                (fun v => htmlEscape v.value))
        ∧ wp_json_type_html (values_by_enum enum_values) names ftype
          = String.intercalate ", "
              ((enum_values.filter (fun v => v.enum == baseType ftype)).map
                (fun v => htmlEscape v.value)))
    ∧ (values_by_enum enum_values ftype ≠ [] →
      csv_type_html (values_by_enum enum_values) ftype
          = String.intercalate ", "
              ((enum_values.filter (fun v => v.enum == ftype)).map
                (fun v => htmlEscape v.label))
        ∧ wp_csv_type_html (values_by_enum enum_values) ftype
          = String.intercalate ", "
              ((enum_values.filter (fun v => v.enum == ftype)).map
                (fun v => htmlEscape v.label))) := by
  constructor
  · intro h
    constructor
    · rw [json_type_html]
      simp only [if_pos h]
      rw [values_by_enum_eq]
    · rw [wp_json_type_html]
      simp only [if_pos h]
      rw [values_by_enum_eq]
  · intro h
    constructor
    · rw [csv_type_html, if_pos h, values_by_enum_eq]
    · rw [wp_csv_type_html, if_pos h, values_by_enum_eq]

/-- Witness for C4 (amended): for a plain field type `Status` naming the enum
with rows `(A, Active)`, `(I, Inactive)`, the JSON cell reads `A, I` and the
CSV cell reads `Active, Inactive`. -/
theorem c4_witness :
    (values_by_enum [⟨"Status", "A", "Active"⟩, ⟨"Status", "I", "Inactive"⟩]
        (baseType "Status") ≠ []
      ∧ values_by_enum [⟨"Status", "A", "Active"⟩, ⟨"Status", "I", "Inactive"⟩]
        "Status" ≠ [])
    ∧ (json_type_html
          (values_by_enum [⟨"Status", "A", "Active"⟩, ⟨"Status", "I", "Inactive"⟩])
          ["Site"] "Status"
        = String.intercalate ", "
            (([(⟨"Status", "A", "Active"⟩ : EnumRow), ⟨"Status", "I", "Inactive"⟩].filter
                (fun v => v.enum == baseType "Status")).map (fun v => htmlEscape v.value))
      ∧ csv_type_html
          (values_by_enum [⟨"Status", "A", "Active"⟩, ⟨"Status", "I", "Inactive"⟩])
          "Status"
        = String.intercalate ", "
            (([(⟨"Status", "A", "Active"⟩ : EnumRow), ⟨"Status", "I", "Inactive"⟩].filter
                (fun v => v.enum == "Status")).map (fun v => htmlEscape v.label))) :=
  ⟨⟨by decide, by decide⟩,
    ⟨((c4_amended_enum_cells [⟨"Status", "A", "Active"⟩, ⟨"Status", "I", "Inactive"⟩]
        ["Site"] "Status").1 (by decide)).1,
      ((c4_amended_enum_cells [⟨"Status", "A", "Active"⟩, ⟨"Status", "I", "Inactive"⟩]
        ["Site"] "Status").2 (by decide)).1⟩⟩

/-- C5 is corrected.  Counterexample: a field of stripped type `boolean` with
an array marker, `boolean[]`, is NOT rendered as the two-value literal by the
CSV renderer — the CSV type cell compares the raw, unstripped string with
`boolean`, so `boolean[]` falls through to the literal branch. -/
theorem c5_counterexample :
    baseType "boolean[]" = "boolean"
    ∧ csv_type_html (values_by_enum []) "boolean[]" = "<span class=\"type\">boolean[]</span>"
    ∧ csv_type_html (values_by_enum []) "boolean[]" ≠ "<span class=\"type\">TRUE, FALSE</span>" := by
  refine ⟨by decide, by decide, by decide⟩

/-- C5 (amended): provided no enum is named `boolean` (the enum branch is
checked first), a field whose STRIPPED type is `boolean` gets the lowercase
literal `true, false` in the JSON-style type cells (standalone with a span
wrapper, WordPress plain) and in the display label of the hierarchy resolver, while
the CSV-style type cells show the uppercase `TRUE, FALSE` exactly when the
RAW, unstripped type is `boolean` (they do not strip array markers). -/
theorem c5_amended_boolean_labels (enum_values : List EnumRow) (names : List String)
    (ftype : String)
    (hnoenum : enum_values.filter (fun v => v.enum == "boolean") = []) :
    (baseType ftype = "boolean" →
      json_type_html (values_by_enum enum_values) names ftype
          = "<span class=\"type\">true, false</span>"
        ∧ wp_json_type_html (values_by_enum enum_values) names ftype = "true, false"
        ∧ type_display (hier_values_by_enum enum_values) (baseType ftype) = "true, false")
    ∧ (ftype = "boolean" →
      csv_type_html (values_by_enum enum_values) ftype = "<span class=\"type\">TRUE, FALSE</span>"
        ∧ wp_csv_type_html (values_by_enum enum_values) ftype = "TRUE, FALSE") := by
  have hv : values_by_enum enum_values "boolean" = [] := by
    rw [values_by_enum_eq, hnoenum]
  have hh : hier_values_by_enum enum_values "boolean" = [] := by
    rw [hier_values_by_enum_eq, hnoenum, List.map_nil]
  constructor
  · intro hb
    refine ⟨?_, ?_, ?_⟩
    · rw [json_type_html]
      simp [hb, hv]
    · rw [wp_json_type_html]
      simp [hb, hv]
    · rw [hb, type_display]
      simp [hh]
  · intro hb
    subst hb
    constructor
    · rw [csv_type_html]
      simp [hv]
    · rw [wp_csv_type_html]
      simp [hv]

/-- Witness for C5 (amended): with no enums at all and field type `boolean`,
the JSON cell reads `true, false` and the CSV cell reads `TRUE, FALSE`. -/
theorem c5_witness :
    (([] : List EnumRow).filter (fun v => v.enum == "boolean") = []
      ∧ baseType "boolean" = "boolean")
    ∧ (json_type_html (values_by_enum []) ["Site"] "boolean"
          = "<span class=\"type\">true, false</span>"
      ∧ csv_type_html (values_by_enum []) "boolean"
          = "<span class=\"type\">TRUE, FALSE</span>") :=
  ⟨⟨by decide, by decide⟩,
    ⟨((c5_amended_boolean_labels [] ["Site"] "boolean" (by decide)).1 (by decide)).1,
      ((c5_amended_boolean_labels [] ["Site"] "boolean" (by decide)).2 rfl).1⟩⟩

/-- C2 is corrected.  Counterexample: the CSV-table renderers do not apply the
Location-into-Site merge at all — their fixed section order contains
`Location`, so a `Location` row with a csv column yields a `Location` section
in the rendered CSV output, contradicting "zero sections … in any rendered
output of any generator". -/
theorem c2_counterexample :
    "Location" ∈ (csv_sections [⟨"Location", "", "lat", "string", "Latitude"⟩]).map
      (fun s => s.1) := by
  decide

/-- C2 (amended): the merge applies only to the JSON-oriented outputs, and
only when both `Location` and `Site` own rows.  In the JSON section renderers
(standalone and WordPress, which share this logic) `Location` never yields a
section — and hence no navigation entry, since navigation anchors are built
exactly from the emitted section objects; when both `Location` and `Site` own
rows, every json-named `Location` field row is rendered inside the `Site`
section, and the `Site` section is emitted whenever the objects table lists
`Site`.  In the hierarchy resolver the merge (under the analogous condition on
its `primitives` map) empties the `Location` primitive list into the `Site`
one.  The
CSV renderers are untouched by the merge. -/
theorem c2_amended_merge (objects : List ObjectRow) (fields : List FieldRow) :
    (∀ o ∈ json_objects objects fields, o.name ≠ "Location")
    ∧ (fields_by_object fields "Location" ≠ [] → fields_by_object fields "Site" ≠ [] →
        ∀ f ∈ fields, f.object = "Location" → f.json_name ≠ "" →
          f ∈ json_section_rows fields "Site")
    ∧ ("Site" ∈ objects.map (·.name) →
        fields_by_object fields "Location" ≠ [] → fields_by_object fields "Site" ≠ [] →
        (∃ f, f ∈ fields ∧ f.object = "Location" ∧ f.json_name ≠ "") →
          ∃ o, o ∈ json_objects objects fields ∧ o.name = "Site")
    ∧ (∀ tm : TreeMaps, tm.primitives "Location" ≠ [] → tm.primitives "Site" ≠ [] →
        (merge_primitives tm).primitives "Location" = []
        ∧ (merge_primitives tm).primitives "Site"
            = tm.primitives "Site" ++ tm.primitives "Location") := by
  have key : fields_by_object fields "Location" ≠ [] → fields_by_object fields "Site" ≠ [] →
      ∀ f ∈ fields, f.object = "Location" → f.json_name ≠ "" →
        f ∈ json_section_rows fields "Site" := by
    intro hL hS f hf hobj hjson
    have hm : merge_location (fields_by_object fields) "Site"
        = fields_by_object fields "Site" ++ fields_by_object fields "Location" := by
      rw [merge_location, if_pos ⟨hL, hS⟩]
      simp
    have hfL : f ∈ fields_by_object fields "Location" := by
      rw [fields_by_object_eq]
      exact List.mem_filter.mpr ⟨hf, by simp [hobj]⟩
    rw [json_section_rows, hm]
    exact List.mem_filter.mpr
      ⟨List.mem_append.mpr (Or.inr hfL), by simp [is_json_field, hjson]⟩
  refine ⟨?_, key, ?_, ?_⟩
  · intro o ho
    have hp := (List.mem_filter.mp ho).2
    simp only [Bool.and_eq_true, bne_iff_ne, ne_eq] at hp
    exact hp.1
  · intro hSo hL hS hex
    rcases hex with ⟨f, hf, hobj, hjson⟩
    rcases List.mem_map.mp hSo with ⟨o, ho, hname⟩
    have hmem := key hL hS f hf hobj hjson
    refine ⟨o, List.mem_filter.mpr ⟨ho, ?_⟩, hname⟩
    rcases List.mem_filter.mp hmem with ⟨hmf, hj⟩
    simp only [hname]
    simp [List.isEmpty_iff]
    exact ⟨f, hmf, hj⟩
  · intro tm h1 h2
    rw [merge_primitives, if_pos ⟨h1, h2⟩]
    exact ⟨by simp, by simp⟩

/-- Witness for C2 (amended): with objects `Site`, `Location` and one
json-named row each, the `Location` row `lat` lands in the row list of the
`Site` section and `Site` is among the emitted section objects. -/
theorem c2_witness :
    (fields_by_object [(⟨"Site", "name", "", "string", ""⟩ : FieldRow),
        ⟨"Location", "lat", "", "number", ""⟩] "Location" ≠ []
      ∧ fields_by_object [(⟨"Site", "name", "", "string", ""⟩ : FieldRow),
        ⟨"Location", "lat", "", "number", ""⟩] "Site" ≠ [])
    ∧ (⟨"Location", "lat", "", "number", ""⟩ : FieldRow)
        ∈ json_section_rows [(⟨"Site", "name", "", "string", ""⟩ : FieldRow),
            ⟨"Location", "lat", "", "number", ""⟩] "Site" :=
  ⟨⟨by decide, by decide⟩,
    (c2_amended_merge [⟨"Site", ""⟩, ⟨"Location", ""⟩]
        [⟨"Site", "name", "", "string", ""⟩, ⟨"Location", "lat", "", "number", ""⟩]).2.1
      (by decide) (by decide) ⟨"Location", "lat", "", "number", ""⟩ (by decide) rfl (by decide)⟩

set_option maxRecDepth 8192 in
/-- C7 is corrected.  Counterexample: with `Site` absent from every resolved
map, `render_node` on the fixed root pair does NOT propagate a lookup fault —
every dictionary access in its body is guarded (`descriptions.get` with a
default, `if obj_name in primitives`, `if obj_name in children`), so it
completes and renders `Site` as an empty container. -/
theorem c7_counterexample :
    render_node (fun _ => []) (fun _ => []) (fun _ => none) 1 "Site" (some "sites") true 0
      = some "<div class=\"node\" style=\"background: #e8f5e9; border-color: #4caf50;\">\n            <div class=\"header\">\n                <span class=\"field-name\">sites[]</span>\n                <span class=\"type-name\">Site</span>\n            </div>\n            \n            \n            \n        </div>" := by
  decide

set_option maxRecDepth 8192 in
/-- C7 (amended): a root object absent from the resolved maps is NOT fatal:
the nested-box generator renders `Site` as an empty container (blank
description, no field table, no children block) and the run completes.  The
fatal condition of the hierarchy script is instead an absent input file, whose
unguarded `open` in its loader raises an unhandled `FileNotFoundError`. -/
theorem c7_amended_missing_root
    (children : String → List (String × String × Bool))
    (primitives : String → List (String × String × String))
    (descriptions : String → Option String) (fuel : Nat)
    (hch : children "Site" = []) (hpr : primitives "Site" = [])
    (hds : descriptions "Site" = none) :
    render_node children primitives descriptions (fuel + 1) "Site" (some "sites") true 0
      = some "<div class=\"node\" style=\"background: #e8f5e9; border-color: #4caf50;\">\n            <div class=\"header\">\n                <span class=\"field-name\">sites[]</span>\n                <span class=\"type-name\">Site</span>\n            </div>\n            \n            \n            \n        </div>"
    ∧ (∀ (fs : String → Option (List FieldRow)) (filename : String), fs filename = none →
        load_csv_hierarchy fs filename = Except.error "FileNotFoundError") := by
  constructor
  · simp only [render_node, hch, hpr, hds, optionTraverse]
    decide
  · intro fs filename h
    simp [load_csv_hierarchy, h]

/-- Witness for C7 (amended): instantiated at the everywhere-empty maps. -/
theorem c7_witness :
    ((fun _ : String => ([] : List (String × String × Bool))) "Site" = []
      ∧ (fun _ : String => ([] : List (String × String × String))) "Site" = []
      ∧ (fun _ : String => (none : Option String)) "Site" = none)
    ∧ render_node (fun _ => []) (fun _ => []) (fun _ => none) (0 + 1) "Site" (some "sites") true 0
      = some "<div class=\"node\" style=\"background: #e8f5e9; border-color: #4caf50;\">\n            <div class=\"header\">\n                <span class=\"field-name\">sites[]</span>\n                <span class=\"type-name\">Site</span>\n            </div>\n            \n            \n            \n        </div>" :=
  ⟨⟨rfl, rfl, rfl⟩,
    (c7_amended_missing_root (fun _ => []) (fun _ => []) (fun _ => none) 0 rfl rfl rfl).1⟩

theorem merge_primitives_children (tm : TreeMaps) :
    (merge_primitives tm).children = tm.children := by
  rw [merge_primitives]
  split <;> rfl

/-- C9 is corrected.  Counterexample (an acyclic input): with objects `A`, `B`
and the single field row `{object: B, json_name: a, type: A}`, the upward walk
from `A` stops at `B` — which has no `parent_map` entry and is not the
document root — so `compute_json_path` returns `".a"`, a dotted concatenation
NOT prefixed by the root literal `sites[]`: the walk terminated without
reaching the document root. -/
theorem c9_counterexample :
    compute_json_path
        (parent_map (object_names [⟨"A", ""⟩, ⟨"B", ""⟩]) [⟨"B", "a", "", "A", ""⟩])
        3 "A" = some ".a"
    ∧ (".a").startsWith "sites[]" = false := by
  refine ⟨by decide, by decide⟩

/-- C9 (amended): for every input whose derived object-reference relation is
acyclic, the recursive traversals terminate: `render_node` from the fixed root
pair succeeds with enough fuel, and `compute_json_path` succeeds for every
object.  The root objects `Site` and `Location` map to the fixed literal
`sites[]`; elsewhere the result is the parent path extended by
`.<field name>` with an array suffix when a `parent_map` entry exists, and the
empty-prefixed concatenation bottoms out with `""` at an object without a
parent entry — so the path starts with the root literal only when the upward
walk reaches `Site`/`Location`. -/
theorem c9_amended_termination (objects : List ObjectRow) (fields : List FieldRow)
    (enum_values : List EnumRow)
    (hacyc : ∀ x, ¬ Relation.TransGen (edgeRel (object_names objects) fields) x x) :
    (∃ fuel, (render_node ((build_tree objects fields enum_values).1.children)
        ((build_tree objects fields enum_values).1.primitives)
        ((build_tree objects fields enum_values).2)
        fuel "Site" (some "sites") true 0).isSome = true)
    ∧ (∀ o : String, ∃ fuel,
        (compute_json_path (parent_map (object_names objects) fields) fuel o).isSome = true)
    ∧ (∀ fuel : Nat,
        compute_json_path (parent_map (object_names objects) fields) (fuel + 1) "Site"
            = some "sites[]"
        ∧ compute_json_path (parent_map (object_names objects) fields) (fuel + 1) "Location"
            = some "sites[]")
    ∧ (∀ (fuel : Nat) (o p fn : String) (ar : Bool), o ≠ "Site" → o ≠ "Location" →
        parent_map (object_names objects) fields o = some (p, fn, ar) →
        compute_json_path (parent_map (object_names objects) fields) (fuel + 1) o
          = (compute_json_path (parent_map (object_names objects) fields) fuel p).map
              (fun pp => pp ++ "." ++ fn ++ (if ar then "[]" else "")))
    ∧ (∀ (fuel : Nat) (o : String), o ≠ "Site" → o ≠ "Location" →
        parent_map (object_names objects) fields o = none →
        compute_json_path (parent_map (object_names objects) fields) (fuel + 1) o
            = some "") := by
  obtain ⟨rank, hrank, hbound⟩ :=
    exists_rank_of_acyclic (edgeRel (object_names objects) fields)
      (fields.map (·.object)) (fun p c h => edgeRel_source_mem h) hacyc
  refine ⟨?_, ?_, ?_, ?_, ?_⟩
  · refine ⟨rank "Site" + 1, ?_⟩
    have hch : (build_tree objects fields enum_values).1.children
        = (build_maps (object_names objects) (hier_values_by_enum enum_values) fields).children := by
      rw [build_tree]
      exact merge_primitives_children _
    rw [hch]
    apply render_node_isSome_of_rank _ _ _ rank
    · intro o e he
      exact hrank o e.2.1 (children_entry_edge he)
    · exact Nat.lt_succ_self _
  · intro o
    refine ⟨(fields.map (·.object)).length + 1, ?_⟩
    apply compute_json_path_isSome_of_rank _ rank ((fields.map (·.object)).length)
      (fun c p fn ar h => hrank p c (parent_map_entry_edge h)) hbound
    omega
  · intro fuel
    constructor <;> simp [compute_json_path]
  · intro fuel o p fn ar h1 h2 hp
    have hroot : ¬ (o = "Site" ∨ o = "Location") := by
      rintro (h | h) <;> [exact h1 h; exact h2 h]
    simp [compute_json_path, hroot, hp]
  · intro fuel o h1 h2 hp
    have hroot : ¬ (o = "Site" ∨ o = "Location") := by
      rintro (h | h) <;> [exact h1 h; exact h2 h]
    simp [compute_json_path, hroot, hp]

/-- Witness for C9 (amended): the counterexample input is acyclic (its only
edge is `B → A`), and the theorem yields termination of the path computation
for `A` there. -/
theorem c9_witness :
    (∀ x, ¬ Relation.TransGen
        (edgeRel (object_names [⟨"A", ""⟩, ⟨"B", ""⟩]) [⟨"B", "a", "", "A", ""⟩]) x x)
    ∧ (∀ o : String, ∃ fuel,
        (compute_json_path
          (parent_map (object_names [⟨"A", ""⟩, ⟨"B", ""⟩]) [⟨"B", "a", "", "A", ""⟩])
          fuel o).isSome = true) := by
  have hedge : ∀ p c,
      edgeRel (object_names [⟨"A", ""⟩, ⟨"B", ""⟩]) [⟨"B", "a", "", "A", ""⟩] p c →
        p = "B" ∧ c = "A" := by
    intro p c h
    rcases h with ⟨f, hf, hobj, -, hbase, -⟩
    rcases List.mem_singleton.mp hf with rfl
    refine ⟨hobj.symm, ?_⟩
    rw [← hbase]
    rfl
  have hstep : ∀ a b,
      Relation.TransGen
          (edgeRel (object_names [⟨"A", ""⟩, ⟨"B", ""⟩]) [⟨"B", "a", "", "A", ""⟩]) a b →
        a = "B" ∧ b = "A" := by
    intro a b h
    induction h with
    | single h => exact hedge _ _ h
    | tail _ h ih =>
      rcases hedge _ _ h with ⟨hb, hx⟩
      rcases ih with ⟨ha, hc⟩
      exact absurd (hc.symm.trans hb) (by decide)
  have hacyc : ∀ x, ¬ Relation.TransGen
      (edgeRel (object_names [⟨"A", ""⟩, ⟨"B", ""⟩]) [⟨"B", "a", "", "A", ""⟩]) x x := by
    intro x h
    rcases hstep x x h with ⟨h1, h2⟩
    exact absurd (h1.symm.trans h2) (by decide)
  exact ⟨hacyc,
    (c9_amended_termination [⟨"A", ""⟩, ⟨"B", ""⟩] [⟨"B", "a", "", "A", ""⟩] [] hacyc).2.1⟩

end Webtest
